import Mathlib

/-!
Verification development for the Mastodon-Community-Bridge repository
(`mastodon_bridge.py`).  The core of the program — feature extraction
(`extract_keywords`, `extract_hashtags`), the similarity scorer
(`calculate_similarity`) and the bridge finder (`find_bridges`) — is
embedded below as executable Lean definitions, and the specification's
testable properties are settled as theorems about these definitions.

Python strings are modelled as Lean `String`s (lists of characters);
Python floats are modelled as rationals `ℚ` (every number the scorer
produces on the claims' inputs is an exact small rational, and the
defensive `min` clamp keeps the bound claims float-robust).
-/

/-! ### Python string primitives

Structural models of the `str` methods the program uses:
`lower`, `split()` (on whitespace, dropping empty tokens),
`strip(chars)`, `startswith`, `replace`. -/

/-- The punctuation characters stripped from keyword edges:
`.,!?;:()[]\x7b\x7d` (the brace characters are given by code point). -/
def punctList : List Char :=
  ['.', ',', '!', '?', ';', ':', '(', ')', '[', ']', Char.ofNat 123, Char.ofNat 125]

def isPunct (c : Char) : Bool := punctList.contains c

/-- Python `str.lower()` (ASCII case mapping). -/
def lowerStr (s : String) : String := String.mk (s.data.map Char.toLower)

/-- Helper for `splitWs`: accumulates the current (reversed) token. -/
def splitWsAux : List Char → List Char → List (List Char)
  | [], acc => if acc.isEmpty then [] else [acc.reverse]
  | c :: cs, acc =>
    if c.isWhitespace then
      if acc.isEmpty then splitWsAux cs [] else acc.reverse :: splitWsAux cs []
    else splitWsAux cs (c :: acc)

/-- Python `str.split()` with no argument: maximal runs of
non-whitespace characters; no empty tokens are produced. -/
def splitWs (s : String) : List String := (splitWsAux s.data []).map String.mk

/-- Python `w.strip('.,!?;:()[]\x7b\x7d')`: remove the enumerated
punctuation characters from both edges of the token. -/
def stripPunct (w : String) : String :=
  String.mk (((w.data.dropWhile isPunct).reverse.dropWhile isPunct).reverse)

/-- Python `w.startswith('http')`. -/
def startsWithHttp (w : String) : Bool := "http".data.isPrefixOf w.data

/-- Fuelled helper for `pyReplace`; fuel `s.length` suffices for a
non-empty pattern because every step consumes at least one character. -/
def pyReplaceAux (pat rep : List Char) : Nat → List Char → List Char
  | _, [] => []
  | 0, l => l
  | fuel + 1, c :: cs =>
    if pat.isPrefixOf (c :: cs) then
      rep ++ pyReplaceAux pat rep fuel ((c :: cs).drop pat.length)
    else
      c :: pyReplaceAux pat rep fuel cs

/-- Python `s.replace(pat, rep)` for a non-empty pattern: replace every
(leftmost, non-overlapping) occurrence. -/
def pyReplace (s pat rep : String) : String :=
  String.mk (pyReplaceAux pat.data rep.data s.data.length s.data)

/-! ### Data model

A `Post` is the well-formed shape the similarity core consumes: an
optional `content` string and an optional list of tag names
(`tags[].name` in the JSON record).  Missing fields are `none`.
(The dynamic, arbitrarily-shaped record model used to analyse totality
over malformed records is `PyVal` below.) -/

structure Post where
  content : Option String
  tags : Option (List String)
deriving DecidableEq

/-- `extract_keywords` from `mastodon_bridge.py`: on falsy (empty) text
return the empty set; otherwise lowercase, split on whitespace, keep
tokens with `len(w) > 3` not starting with `http`, and strip the
enumerated punctuation from each kept token's edges (set semantics). -/
def extract_keywords (text : String) : Finset String :=
  if text = "" then ∅
  else
    (((splitWs (lowerStr text)).filter
        (fun w => decide (3 < w.length) && !(startsWithHttp w))).map stripPunct).toFinset

/-- `extract_hashtags` from `mastodon_bridge.py`: if the post has a
`tags` field, the set of lowercased tag names; otherwise the empty set. -/
def extract_hashtags (post : Post) : Finset String :=
  match post.tags with
  | some tags => (tags.map lowerStr).toFinset
  | none => ∅

/-- The content preprocessing done by `calculate_similarity`:
`content.replace('<p>', ' ').replace('</p>', ' ')`. -/
def preprocessContent (content : String) : String :=
  pyReplace (pyReplace content "<p>" " ") "</p>" " "

/-- The keyword set `calculate_similarity` derives from a post:
`extract_keywords` applied to the preprocessed `content` field
(`post.get('content', '')`). -/
def postWords (post : Post) : Finset String :=
  extract_keywords (preprocessContent (post.content.getD ""))

/-- The divisor of the hashtag Jaccard term: `max(len(tags1 | tags2), 1)`. -/
def tagDenom (post1 post2 : Post) : ℕ :=
  max (extract_hashtags post1 ∪ extract_hashtags post2).card 1

/-- The divisor of the keyword Jaccard term: `max(len(words1 | words2), 1)`. -/
def wordDenom (post1 post2 : Post) : ℕ :=
  max (postWords post1 ∪ postWords post2).card 1

/-- `tag_sim = (tag_overlap / max(len(tags1 | tags2), 1)) * 2`. -/
def tag_sim (post1 post2 : Post) : ℚ :=
  ((extract_hashtags post1 ∩ extract_hashtags post2).card : ℚ) / (tagDenom post1 post2 : ℚ) * 2

/-- `word_sim = word_overlap / max(len(words1 | words2), 1)`. -/
def word_sim (post1 post2 : Post) : ℚ :=
  ((postWords post1 ∩ postWords post2).card : ℚ) / (wordDenom post1 post2 : ℚ)

/-- Python's binary `min`: the first argument when it is `≤` the second.
(Kept as an explicit `if` so that the kernel can evaluate it.) -/
def pymin (a b : ℚ) : ℚ := if a ≤ b then a else b

/-- `calculate_similarity` from `mastodon_bridge.py`: 0 when all four
feature sets are empty, otherwise `min((tag_sim + word_sim) / 3, 1.0)`. -/
def calculate_similarity (post1 post2 : Post) : ℚ :=
  if extract_hashtags post1 = ∅ ∧ extract_hashtags post2 = ∅ ∧
      postWords post1 = ∅ ∧ postWords post2 = ∅ then 0
  else pymin ((tag_sim post1 post2 + word_sim post1 post2) / 3) 1

/-! ### Bridge finder -/

/-- One entry of `self.posts_data`: a post together with the instance it
was fetched from. -/
structure Observation where
  inst : String
  post : Post
deriving DecidableEq

/-- A bridge record as built by `find_bridges`. -/
structure Bridge where
  similarity : ℚ
  post1 : Observation
  post2 : Observation
  common_tags : Finset String
deriving DecidableEq

/-- The bridge dict appended for a qualifying pair. -/
def mkBridge (data1 data2 : Observation) : Bridge :=
  { similarity := calculate_similarity data1.post data2.post
    post1 := data1
    post2 := data2
    common_tags := extract_hashtags data1.post ∩ extract_hashtags data2.post }

/-- The pair enumeration of the nested loop
`for i, data1 in enumerate(posts)` / `for data2 in posts[i+1:]`. -/
def allPairs {α : Type} : List α → List (α × α)
  | [] => []
  | x :: xs => xs.map (fun y => (x, y)) ++ allPairs xs

/-- The `bridges` list as accumulated by the loop body of
`find_bridges`, in enumeration order: skip same-instance pairs, score
the rest, keep a pair iff `similarity >= min_similarity`. -/
def bridgeCandidates (posts_data : List Observation) (min_similarity : ℚ) : List Bridge :=
  (allPairs posts_data).filterMap fun pr =>
    if pr.1.inst = pr.2.inst then none
    else if min_similarity ≤ calculate_similarity pr.1.post pr.2.post then
      some (mkBridge pr.1 pr.2)
    else none

/-- The sort order of `bridges.sort(key=lambda x: x['similarity'], reverse=True)`:
`a` may precede `b` when `a`'s similarity is at least `b`'s. -/
def bridgeLE (a b : Bridge) : Bool := decide (b.similarity ≤ a.similarity)

/-- `find_bridges` from `mastodon_bridge.py`: the accumulated candidate
list, stably sorted by similarity descending (Python's `list.sort` is
stable, also with `reverse=True`). -/
def find_bridges (posts_data : List Observation) (min_similarity : ℚ) : List Bridge :=
  List.mergeSort (bridgeCandidates posts_data min_similarity) bridgeLE

/-! ### Dynamic record model

`PyVal` models the JSON-like Python values a fetched post record can
contain; `raw_extract_hashtags` and `raw_content_keywords` replay the
extraction code on such records, returning `Except` where the Python
code would raise. -/

inductive PyVal where
  | null
  | str (s : String)
  | int (n : Int)
  | arr (xs : List PyVal)
  | dict (kvs : List (String × PyVal))

/-- Python dict lookup `d[k]` / membership `k in d` on a record. -/
def dictGet (kvs : List (String × PyVal)) (k : String) : Option PyVal :=
  (kvs.find? (fun kv => kv.1 = k)).map (fun kv => kv.2)

/-- Python iteration `for tag in v`: a list yields its elements, a
string yields its characters (as 1-character strings), a dict yields
its keys; `None` and numbers are not iterable and raise `TypeError`. -/
def pyIter : PyVal → Except String (List PyVal)
  | .arr xs => .ok xs
  | .str s => .ok (s.data.map (fun c => .str (String.mk [c])))
  | .dict kvs => .ok (kvs.map (fun kv => .str kv.1))
  | _ => .error "TypeError: not iterable"

/-- `tag['name'].lower()` for one iterated `tags` element: raises
`TypeError` when the element does not support string subscripts (a
string, number, list or `None`), `KeyError` when a dict element has no
`name` key, `AttributeError` when the name value is not a string. -/
def tagName : PyVal → Except String String
  | .dict kvs =>
    match dictGet kvs "name" with
    | some (.str s) => .ok (lowerStr s)
    | some _ => .error "AttributeError: lower"
    | none => .error "KeyError: name"
  | _ => .error "TypeError: bad subscript"

/-- `extract_hashtags` replayed on a raw record: `if 'tags' in post`
guards only the *presence* of the field; the value is then iterated
(so an empty string or empty dict yields the empty set without error)
and each element is subscripted with `'name'`. -/
def raw_extract_hashtags (post : List (String × PyVal)) : Except String (Finset String) :=
  match dictGet post "tags" with
  | some v =>
    match pyIter v with
    | .ok tags => (tags.mapM tagName).map List.toFinset
    | .error e => .error e
  | none => .ok ∅

/-- The keyword-set computation of `calculate_similarity` replayed on a
raw record: `post.get('content', '')` defaults a *missing* field to
`''`, but a present non-string value makes `.replace` raise. -/
def raw_content_keywords (post : List (String × PyVal)) : Except String (Finset String) :=
  match (dictGet post "content").getD (.str "") with
  | .str s => .ok (extract_keywords (preprocessContent s))
  | _ => .error "AttributeError: replace"

/-! ### Helper lemmas -/

theorem pymin_eq_min (a b : ℚ) : pymin a b = min a b := by
  simp [pymin, min_def]

theorem tag_sim_comm (p1 p2 : Post) : tag_sim p1 p2 = tag_sim p2 p1 := by
  unfold tag_sim tagDenom
  rw [Finset.inter_comm, Finset.union_comm]

theorem word_sim_comm (p1 p2 : Post) : word_sim p1 p2 = word_sim p2 p1 := by
  unfold word_sim wordDenom
  rw [Finset.inter_comm, Finset.union_comm]

theorem tag_sim_nonneg (p1 p2 : Post) : 0 ≤ tag_sim p1 p2 := by
  unfold tag_sim
  positivity

theorem word_sim_nonneg (p1 p2 : Post) : 0 ≤ word_sim p1 p2 := by
  unfold word_sim
  positivity

theorem tagDenom_pos (p1 p2 : Post) : 0 < tagDenom p1 p2 :=
  lt_of_lt_of_le Nat.zero_lt_one (le_max_right _ 1)

theorem wordDenom_pos (p1 p2 : Post) : 0 < wordDenom p1 p2 :=
  lt_of_lt_of_le Nat.zero_lt_one (le_max_right _ 1)

theorem tag_sim_le_two (p1 p2 : Post) : tag_sim p1 p2 ≤ 2 := by
  unfold tag_sim
  have hle : ((extract_hashtags p1 ∩ extract_hashtags p2).card : ℚ) ≤ (tagDenom p1 p2 : ℚ) := by
    have h1 : (extract_hashtags p1 ∩ extract_hashtags p2).card ≤ tagDenom p1 p2 :=
      le_trans (Finset.card_le_card (Finset.inter_subset_union)) (le_max_left _ 1)
    exact_mod_cast h1
  have hpos : (0 : ℚ) < (tagDenom p1 p2 : ℚ) := by exact_mod_cast tagDenom_pos p1 p2
  calc ((extract_hashtags p1 ∩ extract_hashtags p2).card : ℚ) / (tagDenom p1 p2 : ℚ) * 2
      ≤ 1 * 2 := by
        apply mul_le_mul_of_nonneg_right _ (by norm_num)
        exact (div_le_one hpos).mpr hle
    _ = 2 := one_mul 2

theorem word_sim_le_one (p1 p2 : Post) : word_sim p1 p2 ≤ 1 := by
  unfold word_sim
  have hle : ((postWords p1 ∩ postWords p2).card : ℚ) ≤ (wordDenom p1 p2 : ℚ) := by
    have h1 : (postWords p1 ∩ postWords p2).card ≤ wordDenom p1 p2 :=
      le_trans (Finset.card_le_card (Finset.inter_subset_union)) (le_max_left _ 1)
    exact_mod_cast h1
  have hpos : (0 : ℚ) < (wordDenom p1 p2 : ℚ) := by exact_mod_cast wordDenom_pos p1 p2
  exact (div_le_one hpos).mpr hle

theorem tag_sim_self_of_nonempty {p : Post} (h : extract_hashtags p ≠ ∅) : tag_sim p p = 2 := by
  unfold tag_sim tagDenom
  rw [Finset.inter_self, Finset.union_self]
  have hcard : 1 ≤ (extract_hashtags p).card :=
    Finset.card_pos.mpr (Finset.nonempty_iff_ne_empty.mpr h)
  rw [Nat.max_eq_left hcard]
  have hne : ((extract_hashtags p).card : ℚ) ≠ 0 := by
    exact_mod_cast Nat.one_le_iff_ne_zero.mp hcard
  rw [div_self hne]
  norm_num

theorem tag_sim_self_of_empty {p : Post} (h : extract_hashtags p = ∅) : tag_sim p p = 0 := by
  unfold tag_sim
  rw [Finset.inter_self, h]
  simp

theorem word_sim_self_of_nonempty {p : Post} (h : postWords p ≠ ∅) : word_sim p p = 1 := by
  unfold word_sim wordDenom
  rw [Finset.inter_self, Finset.union_self]
  have hcard : 1 ≤ (postWords p).card :=
    Finset.card_pos.mpr (Finset.nonempty_iff_ne_empty.mpr h)
  rw [Nat.max_eq_left hcard]
  exact div_self (by exact_mod_cast Nat.one_le_iff_ne_zero.mp hcard)

theorem word_sim_self_of_empty {p : Post} (h : postWords p = ∅) : word_sim p p = 0 := by
  unfold word_sim
  rw [Finset.inter_self, h]
  simp

/-! ### Demonstration inputs -/

/-- A post with one hashtag and no content. -/
def pTagsOnly : Post := ⟨none, some ["linux"]⟩

/-- A post with one hashtag and keyword-bearing content. -/
def pFull : Post := ⟨some "linux rocks totally", some ["linux"]⟩

/-- A post with no content and no tags. -/
def pEmpty : Post := ⟨none, none⟩

/-! ### Claims -/

/-- C1, counterexample: a post with at least one hashtag (and no
keywords) has self-similarity `(2 + 0) / 3 = 2/3`, not `1.0`, so
"`similarity(p, p) == 1.0` whenever p has at least one hashtag *or*
keyword" fails on `pTagsOnly`. -/
theorem calculate_similarity_self_tags_only_ne_one :
    extract_hashtags pTagsOnly ≠ ∅ ∧
      calculate_similarity pTagsOnly pTagsOnly = 2 / 3 ∧
      calculate_similarity pTagsOnly pTagsOnly ≠ 1 := by
  refine ⟨by decide, ?_, ?_⟩ <;> with_unfolding_all decide

/-- C1 (amended): self-similarity is `1` exactly when the post has at
least one hashtag *and* at least one extracted keyword; it is `2/3`
with hashtags only, `1/3` with keywords only, and `0` with neither. -/
theorem calculate_similarity_self (p : Post) :
    (extract_hashtags p ≠ ∅ → postWords p ≠ ∅ → calculate_similarity p p = 1) ∧
    (extract_hashtags p ≠ ∅ → postWords p = ∅ → calculate_similarity p p = 2 / 3) ∧
    (extract_hashtags p = ∅ → postWords p ≠ ∅ → calculate_similarity p p = 1 / 3) ∧
    (extract_hashtags p = ∅ → postWords p = ∅ → calculate_similarity p p = 0) := by
  refine ⟨fun h1 h2 => ?_, fun h1 h2 => ?_, fun h1 h2 => ?_, fun h1 h2 => ?_⟩
  · unfold calculate_similarity
    rw [if_neg (by tauto), tag_sim_self_of_nonempty h1, word_sim_self_of_nonempty h2,
      pymin_eq_min]
    norm_num
  · unfold calculate_similarity
    rw [if_neg (by tauto), tag_sim_self_of_nonempty h1, word_sim_self_of_empty h2,
      pymin_eq_min]
    norm_num
  · unfold calculate_similarity
    rw [if_neg (by tauto), tag_sim_self_of_empty h1, word_sim_self_of_nonempty h2,
      pymin_eq_min]
    norm_num
  · unfold calculate_similarity
    rw [if_pos ⟨h1, h1, h2, h2⟩]

/-- C1, witness: the amended self-similarity theorem applied to a
concrete post with a hashtag and a keyword. -/
theorem calculate_similarity_self_witness : calculate_similarity pFull pFull = 1 :=
  (calculate_similarity_self pFull).1 (by decide) (by with_unfolding_all decide)

/-- C2: similarity is symmetric in its two arguments. -/
theorem calculate_similarity_symm (p1 p2 : Post) :
    calculate_similarity p1 p2 = calculate_similarity p2 p1 := by
  unfold calculate_similarity
  rw [tag_sim_comm, word_sim_comm]
  by_cases h : extract_hashtags p1 = ∅ ∧ extract_hashtags p2 = ∅ ∧
      postWords p1 = ∅ ∧ postWords p2 = ∅
  · rw [if_pos h, if_pos (by tauto)]
  · rw [if_neg h, if_neg (by tauto)]

/-- C3: every similarity score lies in the closed interval `[0, 1]`. -/
theorem calculate_similarity_bounded (p1 p2 : Post) :
    0 ≤ calculate_similarity p1 p2 ∧ calculate_similarity p1 p2 ≤ 1 := by
  unfold calculate_similarity
  split
  · norm_num
  · rw [pymin_eq_min]
    constructor
    · refine le_min ?_ zero_le_one
      have := tag_sim_nonneg p1 p2
      have := word_sim_nonneg p1 p2
      positivity
    · exact min_le_right _ _

/-- C4: when all four feature sets are empty the scorer returns `0`
without dividing, and in every case the two divisors are the
`max(·, 1)`-guarded positive numbers, so no division by zero occurs. -/
theorem calculate_similarity_safe_division (p1 p2 : Post) :
    ((extract_hashtags p1 = ∅ ∧ extract_hashtags p2 = ∅ ∧
        postWords p1 = ∅ ∧ postWords p2 = ∅) → calculate_similarity p1 p2 = 0) ∧
    0 < tagDenom p1 p2 ∧ 0 < wordDenom p1 p2 :=
  ⟨fun h => by unfold calculate_similarity; rw [if_pos h],
   tagDenom_pos p1 p2, wordDenom_pos p1 p2⟩

/-- C4, witness: the guard theorem applied to two concrete featureless
posts. -/
theorem calculate_similarity_safe_division_witness :
    calculate_similarity pEmpty pEmpty = 0 ∧ 0 < tagDenom pEmpty pEmpty :=
  ⟨(calculate_similarity_safe_division pEmpty pEmpty).1 (by with_unfolding_all decide),
   (calculate_similarity_safe_division pEmpty pEmpty).2.1⟩

/-- Membership in the candidate list unfolds to a qualifying enumerated
pair. -/
theorem mem_bridgeCandidates (l : List Observation) (θ : ℚ) (b : Bridge) :
    b ∈ bridgeCandidates l θ ↔
      ∃ pr ∈ allPairs l, pr.1.inst ≠ pr.2.inst ∧
        θ ≤ calculate_similarity pr.1.post pr.2.post ∧ b = mkBridge pr.1 pr.2 := by
  unfold bridgeCandidates
  rw [List.mem_filterMap]
  constructor
  · rintro ⟨pr, hpr, hsome⟩
    by_cases h1 : pr.1.inst = pr.2.inst
    · rw [if_pos h1] at hsome
      exact absurd hsome (by simp)
    · rw [if_neg h1] at hsome
      by_cases h2 : θ ≤ calculate_similarity pr.1.post pr.2.post
      · rw [if_pos h2] at hsome
        exact ⟨pr, hpr, h1, h2, (Option.some_inj.mp hsome).symm⟩
      · rw [if_neg h2] at hsome
        exact absurd hsome (by simp)
  · rintro ⟨pr, hpr, h1, h2, rfl⟩
    exact ⟨pr, hpr, by rw [if_neg h1, if_pos h2]⟩

/-- The comparison used by the sort is transitive. -/
theorem bridgeLE_trans : ∀ a b c : Bridge, bridgeLE a b → bridgeLE b c → bridgeLE a c := by
  intro a b c hab hbc
  simp only [bridgeLE, decide_eq_true_eq] at *
  exact le_trans hbc hab

/-- The comparison used by the sort is total. -/
theorem bridgeLE_total : ∀ a b : Bridge, bridgeLE a b || bridgeLE b a := by
  intro a b
  simp only [bridgeLE, Bool.or_eq_true, decide_eq_true_eq]
  exact le_total b.similarity a.similarity

/-- C5: every bridge produced by `find_bridges` relates two
observations from different instances. -/
theorem find_bridges_cross_instance (l : List Observation) (θ : ℚ) (b : Bridge)
    (hb : b ∈ find_bridges l θ) : b.post1.inst ≠ b.post2.inst := by
  rw [find_bridges, List.mem_mergeSort] at hb
  obtain ⟨pr, _, h1, _, rfl⟩ := (mem_bridgeCandidates l θ b).mp hb
  exact h1

/-- C5, witness: a concrete two-instance run producing one bridge, fed
to the cross-instance theorem. -/
theorem find_bridges_cross_instance_witness :
    mkBridge ⟨"a.social", pTagsOnly⟩ ⟨"b.social", pTagsOnly⟩ ∈
        find_bridges [⟨"a.social", pTagsOnly⟩, ⟨"b.social", pTagsOnly⟩] 0 ∧
      (mkBridge ⟨"a.social", pTagsOnly⟩ ⟨"b.social", pTagsOnly⟩).post1.inst ≠
        (mkBridge ⟨"a.social", pTagsOnly⟩ ⟨"b.social", pTagsOnly⟩).post2.inst := by
  have hmem : mkBridge ⟨"a.social", pTagsOnly⟩ ⟨"b.social", pTagsOnly⟩ ∈
      find_bridges [⟨"a.social", pTagsOnly⟩, ⟨"b.social", pTagsOnly⟩] 0 := by
    rw [find_bridges,
      show bridgeCandidates [⟨"a.social", pTagsOnly⟩, ⟨"b.social", pTagsOnly⟩] 0 =
          [mkBridge ⟨"a.social", pTagsOnly⟩ ⟨"b.social", pTagsOnly⟩] from by
        with_unfolding_all rfl,
      List.mergeSort_singleton]
    exact List.mem_singleton.mpr rfl
  exact ⟨hmem, find_bridges_cross_instance _ 0 _ hmem⟩

/-- C6: a bridge is in the output of `find_bridges` exactly when it
records an enumerated cross-instance pair whose similarity is at least
`min_similarity`; so every returned bridge meets the threshold and no
qualifying pair is omitted. -/
theorem find_bridges_mem_iff (l : List Observation) (θ : ℚ) (b : Bridge) :
    b ∈ find_bridges l θ ↔
      ∃ pr ∈ allPairs l, pr.1.inst ≠ pr.2.inst ∧
        θ ≤ calculate_similarity pr.1.post pr.2.post ∧ b = mkBridge pr.1 pr.2 := by
  rw [find_bridges, List.mem_mergeSort]
  exact mem_bridgeCandidates l θ b

/-- C7: the output of `find_bridges` is non-increasing in similarity,
and within each similarity value it preserves the candidate
(enumeration) order: the sort is stable, so the output is a function of
the input order alone. -/
theorem find_bridges_sorted_stable (l : List Observation) (θ : ℚ) :
    (find_bridges l θ).Pairwise (fun a b => b.similarity ≤ a.similarity) ∧
    ∀ s : ℚ, (find_bridges l θ).filter (fun b => decide (b.similarity = s)) =
      (bridgeCandidates l θ).filter (fun b => decide (b.similarity = s)) := by
  constructor
  · exact (List.sorted_mergeSort bridgeLE_trans bridgeLE_total
      (bridgeCandidates l θ)).imp (fun h => by simpa [bridgeLE] using h)
  · intro s
    have hcmem : ∀ x ∈ (bridgeCandidates l θ).filter (fun b => decide (b.similarity = s)),
        (fun b => decide (b.similarity = s)) x = true :=
      fun x hx => (List.mem_filter.mp hx).2
    have hpair : ((bridgeCandidates l θ).filter
        (fun b => decide (b.similarity = s))).Pairwise (fun a b => bridgeLE a b = true) := by
      apply List.pairwise_of_forall_mem_list
      intro a ha b hb
      have hsa : a.similarity = s := by simpa using (List.mem_filter.mp ha).2
      have hsb : b.similarity = s := by simpa using (List.mem_filter.mp hb).2
      simp [bridgeLE, hsa, hsb]
    have hsub : List.Sublist ((bridgeCandidates l θ).filter (fun b => decide (b.similarity = s)))
        (List.mergeSort (bridgeCandidates l θ) bridgeLE) :=
      List.sublist_mergeSort bridgeLE_trans bridgeLE_total hpair (List.filter_sublist _)
    have hsub2 := hsub.filter (fun b => decide (b.similarity = s))
    rw [List.filter_eq_self.mpr hcmem] at hsub2
    have hperm : List.Perm
        ((List.mergeSort (bridgeCandidates l θ) bridgeLE).filter
          (fun b => decide (b.similarity = s)))
        ((bridgeCandidates l θ).filter (fun b => decide (b.similarity = s))) :=
      (List.mergeSort_perm (bridgeCandidates l θ) bridgeLE).filter _
    rw [find_bridges]
    exact (hsub2.eq_of_length hperm.length_eq.symm).symm

/-- C8, counterexample: extraction is not total over arbitrary record
shapes — on a post whose `tags` list contains a tag object without a
`name` key, `extract_hashtags` raises `KeyError` (`tag['name']`). -/
theorem raw_extract_hashtags_keyerror :
    raw_extract_hashtags [("tags", PyVal.arr [PyVal.dict []])] =
      Except.error "KeyError: name" := rfl

/-- C8 (amended): extraction degrades gracefully on *missing* post
fields — a post without a `tags` key yields the empty hashtag set and a
post without a `content` key yields the empty keyword set, with no
error — but it is not total over arbitrary record shapes (see the
`KeyError` counterexample). -/
theorem raw_extraction_total_on_missing_fields (post : List (String × PyVal)) :
    (dictGet post "tags" = none → raw_extract_hashtags post = Except.ok ∅) ∧
    (dictGet post "content" = none → raw_content_keywords post = Except.ok ∅) := by
  constructor
  · intro h
    unfold raw_extract_hashtags
    rw [h]
  · intro h
    unfold raw_content_keywords
    rw [h]
    rfl

/-- C8, witness: the graceful-degradation theorem applied to the empty
record. -/
theorem raw_extraction_total_on_missing_fields_witness :
    raw_extract_hashtags ([] : List (String × PyVal)) = Except.ok ∅ ∧
      raw_content_keywords ([] : List (String × PyVal)) = Except.ok ∅ :=
  ⟨(raw_extraction_total_on_missing_fields []).1 rfl,
   (raw_extraction_total_on_missing_fields []).2 rfl⟩

/-- Iterating an empty-string `tags` value is legal Python and yields
no tag entries, so extraction returns the empty set without raising. -/
theorem raw_extract_hashtags_empty_str :
    raw_extract_hashtags [("tags", PyVal.str "")] = Except.ok ∅ := rfl

/-- Iterating an empty-dict `tags` value likewise yields the empty set
without raising. -/
theorem raw_extract_hashtags_empty_dict :
    raw_extract_hashtags [("tags", PyVal.dict [])] = Except.ok ∅ := rfl

/-- C9: `extract_keywords` returns the empty set on empty text, and
otherwise exactly the set of punctuation-trimmed tokens among the
whitespace tokens of the lowercased text that are longer than 3
characters and do not start with `http`. -/
theorem extract_keywords_spec (text : String) :
    (text = "" → extract_keywords text = ∅) ∧
    ∀ w : String, w ∈ extract_keywords text ↔
      ∃ tok, tok ∈ splitWs (lowerStr text) ∧ 3 < tok.length ∧
        startsWithHttp tok = false ∧ w = stripPunct tok := by
  constructor
  · intro h
    rw [extract_keywords, if_pos h]
  · intro w
    by_cases h : text = ""
    · subst h
      constructor
      · intro hw
        rw [extract_keywords, if_pos rfl] at hw
        exact absurd hw (Finset.not_mem_empty w)
      · rintro ⟨tok, htok, -⟩
        rw [show splitWs (lowerStr "") = [] from rfl] at htok
        exact absurd htok (List.not_mem_nil tok)
    · rw [extract_keywords, if_neg h]
      rw [List.mem_toFinset, List.mem_map]
      constructor
      · rintro ⟨tok, htok, rfl⟩
        obtain ⟨hmem, hcond⟩ := List.mem_filter.mp htok
        simp only [Bool.and_eq_true, decide_eq_true_eq, Bool.not_eq_true'] at hcond
        exact ⟨tok, hmem, hcond.1, hcond.2, rfl⟩
      · rintro ⟨tok, hmem, hlen, hhttp, rfl⟩
        refine ⟨tok, List.mem_filter.mpr ⟨hmem, ?_⟩, rfl⟩
        simp only [Bool.and_eq_true, decide_eq_true_eq, Bool.not_eq_true']
        exact ⟨hlen, hhttp⟩

/-- C9, witness: the characterization applied to the empty text and to
a concrete text with a kept token. -/
theorem extract_keywords_spec_witness :
    extract_keywords "" = ∅ ∧ "hello" ∈ extract_keywords "Hello ????" :=
  ⟨(extract_keywords_spec "").1 rfl,
   ((extract_keywords_spec "Hello ????").2 "hello").mpr
     ⟨"hello", by decide, by decide, by decide, by decide⟩⟩

/-- C10: because the `len > 3` filter runs before punctuation trimming,
a token of four punctuation characters survives the filter and is
trimmed to the empty string: `extract_keywords '????'` is exactly
`{''}`. -/
theorem extract_keywords_empty_token : extract_keywords "????" = {""} := by decide
